import Mathlib

/-!
Verification of the macOS run-loop observer module
(`src/platform_impl/macos/observer.rs`) of the `winit` windowing library.

The module has three parts:

* `EventLoopWaker`: a state machine over one native `CFRunLoopTimer`,
  driven by `stop` / `start` / `start_at`, which reprograms the timer's
  next-fire-date only when the logical wake state actually changes.
* two run-loop phase observers (`control_flow_begin_handler`,
  `control_flow_end_handler`) registered by `setup_control_flow_observers`,
  which translate native `CFRunLoopActivity` values into application
  notifications;
* a panic guard (`control_flow_handler`, delegating to
  `stop_app_on_panic` from `event_loop.rs`) wrapped around every
  native-to-application callback.

Rust `Instant` values are modelled as nanosecond counts (`Nat`).  The
native `f64` fire-date argument of `CFRunLoopTimerSetNextFireDate` is
modelled symbolically: the source only ever passes `f64::MAX`, `f64::MIN`
or `CFAbsoluteTimeGetCurrent() + fsecs`, so a fire date is one of those
three shapes, with the finite arithmetic carried out exactly in `ℚ`.
-/

/-- Rust `std::time::Instant`, modelled as nanoseconds since an arbitrary
epoch. -/
abbrev Instant := Nat

/-- A value passed to the native `CFRunLoopTimerSetNextFireDate` call.
The source passes exactly three shapes: `std::f64::MAX` ("never"),
`std::f64::MIN` ("immediately"), or a finite absolute time
`CFAbsoluteTimeGetCurrent() + fsecs`, modelled exactly as a rational. -/
inductive FireDate
  | f64Max : FireDate
  | f64Min : FireDate
  | absTime (t : ℚ) : FireDate
deriving DecidableEq, Repr

/-- The state of `EventLoopWaker` (struct fields of the Rust type; the
opaque native `timer` handle is represented by the trace of
`CFRunLoopTimerSetNextFireDate` calls the operations emit). -/
structure EventLoopWaker where
  start_instant : Instant
  next_fire_date : Option Instant
deriving DecidableEq, Repr

/-- `EventLoopWaker::default`: the timer is created with first fire date
`std::f64::MAX`, `start_instant` is `Instant::now()` at construction, and
`next_fire_date` is `None`.  Returns the waker together with the
initially programmed fire date. -/
def EventLoopWaker.default (now : Instant) : EventLoopWaker × FireDate :=
  ({ start_instant := now, next_fire_date := none }, FireDate.f64Max)

/-- The fractional-seconds conversion in `start_at`:
`duration.subsec_nanos() as f64 / 1_000_000_000.0 + duration.as_secs() as f64`,
for a duration of `d` nanoseconds, computed exactly in `ℚ`. -/
def fsecs (d : Nat) : ℚ :=
  ((d % 1000000000 : Nat) : ℚ) / 1000000000 + ((d / 1000000000 : Nat) : ℚ)

/-- `EventLoopWaker::stop`: if `next_fire_date` is `Some`, clear it and
reprogram the native fire date to `f64::MAX`; otherwise do nothing.
Returns the new state and the list of native calls performed. -/
def EventLoopWaker.stop (w : EventLoopWaker) : EventLoopWaker × List FireDate :=
  if w.next_fire_date.isSome then
    ({ w with next_fire_date := none }, [FireDate.f64Max])
  else
    (w, [])

/-- `EventLoopWaker::start`: if `next_fire_date ≠ Some(start_instant)`,
store `Some(start_instant)` and reprogram the native fire date to
`f64::MIN`; otherwise do nothing. -/
def EventLoopWaker.start (w : EventLoopWaker) : EventLoopWaker × List FireDate :=
  if w.next_fire_date ≠ some w.start_instant then
    ({ w with next_fire_date := some w.start_instant }, [FireDate.f64Min])
  else
    (w, [])

/-- `EventLoopWaker::start_at`: `now` is `Instant::now()` at call time and
`current` is `CFAbsoluteTimeGetCurrent()` at call time (parameters of the
model; the source reads both clocks inside the function). -/
def EventLoopWaker.start_at (w : EventLoopWaker) (now : Instant) (current : ℚ)
    (instant : Option Instant) : EventLoopWaker × List FireDate :=
  match instant with
  | some instant =>
    if now ≥ instant then
      w.start
    else if w.next_fire_date ≠ some instant then
      ({ w with next_fire_date := some instant },
        [FireDate.absTime (current + fsecs (instant - now))])
    else
      (w, [])
  | none => w.stop

/-- The logical wake state of the spec's data model: `next_fire_date =
None` is `Stopped`, `Some(start_instant)` is `WakeNow`, and any other
stored instant is `WakeAt t`. -/
inductive WakeState
  | Stopped : WakeState
  | WakeNow : WakeState
  | WakeAt (t : Instant) : WakeState
deriving DecidableEq, Repr

/-- The logical wake state of a waker. -/
def EventLoopWaker.wakeState (w : EventLoopWaker) : WakeState :=
  match w.next_fire_date with
  | none => WakeState.Stopped
  | some t => if t = w.start_instant then WakeState.WakeNow else WakeState.WakeAt t

/-- One call of the waker's public interface, carrying the clock readings
the source takes during the call. -/
inductive WakerOp
  | stopOp : WakerOp
  | startOp : WakerOp
  | startAtOp (now : Instant) (current : ℚ) (instant : Option Instant) : WakerOp
deriving DecidableEq, Repr

/-- Apply one interface call to a waker. -/
def WakerOp.apply (w : EventLoopWaker) : WakerOp → EventLoopWaker × List FireDate
  | WakerOp.stopOp => w.stop
  | WakerOp.startOp => w.start
  | WakerOp.startAtOp now current instant => w.start_at now current instant

/-- Run a sequence of interface calls, concatenating the native-call
traces. -/
def runOps (w : EventLoopWaker) : List WakerOp → EventLoopWaker × List FireDate
  | [] => (w, [])
  | op :: ops =>
    let s := op.apply w
    let r := runOps s.1 ops
    (r.1, s.2 ++ r.2)

/-- The number of steps of a call sequence at which the logical wake
state changes (the number of distinct consecutive wake states the run
passes through, not counting the initial one). -/
def countChanges (w : EventLoopWaker) : List WakerOp → Nat
  | [] => 0
  | op :: ops =>
    let w' := (op.apply w).1
    (if w'.wakeState = w.wakeState then 0 else 1) + countChanges w' ops

/-- Well-formedness of one call with respect to the waker's fixed
`start_instant` sentinel: `Instant::now()` is monotone, so every clock
reading taken after construction is at least `start_instant`. -/
def WakerOp.wf (si : Instant) : WakerOp → Prop
  | WakerOp.startAtOp now _ _ => si ≤ now
  | _ => True

/-- Clock coherence of one call: the two clock readings taken during a
`start_at` call describe the same moment, `offset` being the fixed
translation between the `Instant` epoch (in nanoseconds) and the native
`CFAbsoluteTime` clock (in seconds). -/
def WakerOp.sync (offset : ℚ) (si : Instant) : WakerOp → Prop
  | WakerOp.startAtOp now current _ =>
      si ≤ now ∧ current = offset + (now : ℚ) / 1000000000
  | _ => True

/-- The absolute native-clock equivalent of an `Instant`. -/
def nativeTime (offset : ℚ) (t : Instant) : ℚ := offset + (t : ℚ) / 1000000000

/-- The fire date programmed into the native timer after a trace of
`CFRunLoopTimerSetNextFireDate` calls (the last call wins). -/
def applyCalls (fd : FireDate) (calls : List FireDate) : FireDate :=
  calls.foldl (fun _ c => c) fd

/-- The invariant relating the stored `next_fire_date` to the natively
programmed fire date: `None` ↔ `f64::MAX` ("never"),
`Some(start_instant)` ↔ `f64::MIN` ("immediately"), and `Some t` for any
other instant ↔ the absolute native-clock equivalent of `t`. -/
def FireDateInv (offset : ℚ) (w : EventLoopWaker) (fd : FireDate) : Prop :=
  match w.next_fire_date with
  | none => fd = FireDate.f64Max
  | some t =>
    if t = w.start_instant then fd = FireDate.f64Min
    else fd = FireDate.absTime (nativeTime offset t)

/-- The `CFRunLoopActivity` values a phase observer can be delivered.
The numeric flag values live in the external `core_foundation` crate;
only their distinctness matters here. -/
inductive Activity
  | entry : Activity
  | beforeTimers : Activity
  | beforeSources : Activity
  | beforeWaiting : Activity
  | afterWaiting : Activity
  | exit : Activity
deriving DecidableEq, Repr

/-- The activity flag constant `kCFRunLoopAfterWaiting`, as the set of
activities it covers. -/
def kCFRunLoopAfterWaiting : List Activity := [Activity.afterWaiting]

/-- The activity flag constant `kCFRunLoopBeforeWaiting`. -/
def kCFRunLoopBeforeWaiting : List Activity := [Activity.beforeWaiting]

/-- The activity flag constant `kCFRunLoopExit`. -/
def kCFRunLoopExit : List Activity := [Activity.exit]

/-- `CFIndex` is a signed 64-bit integer; `CFIndex::min_value()`. -/
def CFIndexMin : Int := -(2 ^ 63)

/-- `CFIndex::max_value()`. -/
def CFIndexMax : Int := 2 ^ 63 - 1

/-- The two native callbacks the module registers. -/
inductive HandlerId
  | controlFlowBegin : HandlerId
  | controlFlowEnd : HandlerId
deriving DecidableEq, Repr

/-- The run-loop mode an observer is added in. -/
inductive RunLoopMode
  | commonModes : RunLoopMode
deriving DecidableEq, Repr

/-- One observer registration performed by `RunLoop::add_observer`:
activity flag set, priority (`order`), `repeats = ffi::TRUE`, callback
and context pointer (the raw weak `PanicInfo` handle, abstracted to an
identifier), added to the main loop in `kCFRunLoopCommonModes`. -/
structure ObserverReg where
  flags : List Activity
  priority : Int
  repeats : Bool
  handler : HandlerId
  context : Nat
  mode : RunLoopMode
deriving DecidableEq, Repr

/-- `setup_control_flow_observers`: registers the begin observer on
`kCFRunLoopAfterWaiting` at `CFIndex::min_value()` and the end observer
on `kCFRunLoopExit | kCFRunLoopBeforeWaiting` at `CFIndex::max_value()`,
both with the same context and in common modes. -/
def setup_control_flow_observers (ctx : Nat) : List ObserverReg :=
  [ { flags := kCFRunLoopAfterWaiting
      priority := CFIndexMin
      repeats := true
      handler := HandlerId.controlFlowBegin
      context := ctx
      mode := RunLoopMode.commonModes },
    { flags := kCFRunLoopExit ++ kCFRunLoopBeforeWaiting
      priority := CFIndexMax
      repeats := true
      handler := HandlerId.controlFlowEnd
      context := ctx
      mode := RunLoopMode.commonModes } ]

/-- The application notifications delivered to the `ApplicationDelegate`. -/
inductive AppNote
  | wakeup : AppNote
  | cleared : AppNote
deriving DecidableEq, Repr

/-- A panic payload: either the `unreachable!()` panic of an observer
callback's catch-all arm, or a panic raised by the application delegate
itself (identified by an abstract code). -/
inductive PanicPayload
  | unreachableReached : PanicPayload
  | appPanic (code : Nat) : PanicPayload
deriving DecidableEq, Repr

/-- The behaviour of one delegate callback invocation: returns normally
or panics with the given code. -/
inductive CallOutcome
  | ok : CallOutcome
  | panicked (code : Nat) : CallOutcome
deriving DecidableEq, Repr

/-- The application delegate, as an opaque callback target: what each of
its two notifications does when invoked. -/
structure AppDelegate where
  wakeupOutcome : CallOutcome
  clearedOutcome : CallOutcome
deriving DecidableEq, Repr

/-- What running a guarded closure body does: the delegate notifications
it invoked (in order, up to the panic point if any) and the panic it
raised, if any. -/
structure BodyResult where
  invoked : List AppNote
  panicked : Option PanicPayload
deriving DecidableEq, Repr

/-- The closure passed to `control_flow_handler` by
`control_flow_begin_handler`: `kCFRunLoopAfterWaiting` invokes the
delegate's `wakeup`; every other activity hits `unreachable!()`. -/
def control_flow_begin_body (d : AppDelegate) (activity : Activity) : BodyResult :=
  match activity with
  | Activity.afterWaiting =>
    match d.wakeupOutcome with
    | CallOutcome.ok => { invoked := [AppNote.wakeup], panicked := none }
    | CallOutcome.panicked c =>
      { invoked := [AppNote.wakeup], panicked := some (PanicPayload.appPanic c) }
  | _ => { invoked := [], panicked := some PanicPayload.unreachableReached }

/-- The closure passed to `control_flow_handler` by
`control_flow_end_handler`: `kCFRunLoopBeforeWaiting` invokes the
delegate's `cleared`, `kCFRunLoopExit` is a no-op, and every other
activity hits `unreachable!()`. -/
def control_flow_end_body (d : AppDelegate) (activity : Activity) : BodyResult :=
  match activity with
  | Activity.beforeWaiting =>
    match d.clearedOutcome with
    | CallOutcome.ok => { invoked := [AppNote.cleared], panicked := none }
    | CallOutcome.panicked c =>
      { invoked := [AppNote.cleared], panicked := some (PanicPayload.appPanic c) }
  | Activity.exit => { invoked := [], panicked := none }
  | _ => { invoked := [], panicked := some PanicPayload.unreachableReached }

/-- The shared `PanicInfo` cell: holds at most one captured panic
payload. -/
structure PanicInfo where
  payload : Option PanicPayload
deriving DecidableEq, Repr

/-- The portion of the event-loop world a guarded callback can touch:
the panic slot behind the weak handle (`none` when the owning loop has
been torn down, so that `Weak::upgrade` fails), whether loop termination
has been requested, and the delegate notifications delivered so far. -/
structure LoopState where
  slot : Option PanicInfo
  stopRequested : Bool
  delivered : List AppNote
deriving DecidableEq, Repr

/-- How control returns from a guarded invocation to the native frame:
either normally, or by unwinding a panic through the native frame. -/
inductive GuardResult
  | returned (st : LoopState) : GuardResult
  | unwound (p : PanicPayload) (st : LoopState) : GuardResult
deriving DecidableEq, Repr

/-- Modelled from the spec: `stop_app_on_panic` is defined in
`src/platform_impl/macos/event_loop.rs`, which is not under `src/`; per
the spec it upgrades the weak panic-slot handle and, on upgrade failure,
does nothing and returns immediately; otherwise it runs the closure with
panic capture: a panic payload is stored into the slot, loop termination
is requested, and control returns normally to the native frame instead
of unwinding. -/
def stop_app_on_panic (st : LoopState) (body : BodyResult) : GuardResult :=
  match st.slot with
  | none => GuardResult.returned st
  | some _ =>
    match body.panicked with
    | none =>
      GuardResult.returned { st with delivered := st.delivered ++ body.invoked }
    | some p =>
      GuardResult.returned
        { slot := some { payload := some p }
          stopRequested := true
          delivered := st.delivered ++ body.invoked }

/-- The bookkeeping state of the weak `PanicInfo` handle stored as the
observer context: the number of live weak references to the allocation
and whether the registration's raw context pointer still owns one. -/
structure WeakHandle where
  weakCount : Nat
  rawOwned : Bool
deriving DecidableEq, Repr

/-- `Weak::from_raw(panic_info)`: takes ownership of the registration's
raw weak reference into a local. -/
def weakFromRaw (h : WeakHandle) : WeakHandle := { h with rawOwned := false }

/-- `Weak::clone`: one more live weak reference. -/
def weakClone (h : WeakHandle) : WeakHandle := { h with weakCount := h.weakCount + 1 }

/-- `std::mem::forget(info_from_raw)`: the local taken by `from_raw` is
leaked, so the raw context pointer owns its weak reference again. -/
def memForget (h : WeakHandle) : WeakHandle := { h with rawOwned := true }

/-- Dropping the cloned weak handle when the guarded closure finishes. -/
def weakDrop (h : WeakHandle) : WeakHandle := { h with weakCount := h.weakCount - 1 }

/-- `control_flow_handler`: reconstitutes the weak handle from the raw
context pointer, clones it, forgets the reconstituted original so the
registration keeps its reference, and invokes the closure through
`stop_app_on_panic`; the clone is dropped when the invocation returns. -/
def control_flow_handler (h : WeakHandle) (st : LoopState) (body : BodyResult) :
    WeakHandle × GuardResult :=
  let h1 := weakFromRaw h
  let h2 := weakClone h1
  let h3 := memForget h2
  (weakDrop h3, stop_app_on_panic st body)

/-- `control_flow_begin_handler`: the begin observer callback. -/
def control_flow_begin_handler (d : AppDelegate) (h : WeakHandle) (st : LoopState)
    (activity : Activity) : WeakHandle × GuardResult :=
  control_flow_handler h st (control_flow_begin_body d activity)

/-- `control_flow_end_handler`: the end observer callback. -/
def control_flow_end_handler (d : AppDelegate) (h : WeakHandle) (st : LoopState)
    (activity : Activity) : WeakHandle × GuardResult :=
  control_flow_handler h st (control_flow_end_body d activity)

/-- Modelled from the spec: after the loop stops, the event-loop owner
(code in `event_loop.rs`, not under `src/`) takes the captured payload
out of the panic slot and re-raises it, clearing the slot. -/
def resume_panic_if_any (st : LoopState) : Option PanicPayload × LoopState :=
  match st.slot with
  | none => (none, st)
  | some info => (info.payload, { st with slot := some { payload := none } })

/-- A guarded closure body hit the `unreachable!()` catch-all arm. -/
def hitsUnreachable (b : BodyResult) : Prop :=
  b.panicked = some PanicPayload.unreachableReached

/- ### Helper lemmas about the waker state machine -/

/-- `stop` keeps the sentinel and emits one native call exactly when the
logical state changes. -/
theorem stop_calls_spec (w : EventLoopWaker) :
    (w.stop.1.start_instant = w.start_instant) ∧
    (w.stop.2.length = if w.stop.1.wakeState = w.wakeState then 0 else 1) := by
  rcases w with ⟨si, nfd⟩
  cases nfd with
  | none => simp [EventLoopWaker.stop, EventLoopWaker.wakeState]
  | some t =>
    simp only [EventLoopWaker.stop, EventLoopWaker.wakeState, Option.isSome_some, if_true]
    constructor
    · trivial
    · simp only [List.length_singleton]
      split <;> simp_all

/-- `start` keeps the sentinel and emits one native call exactly when the
logical state changes. -/
theorem start_calls_spec (w : EventLoopWaker) :
    (w.start.1.start_instant = w.start_instant) ∧
    (w.start.2.length = if w.start.1.wakeState = w.wakeState then 0 else 1) := by
  rcases w with ⟨si, nfd⟩
  by_cases h : nfd = some si
  · subst h
    simp [EventLoopWaker.start, EventLoopWaker.wakeState]
  · simp only [EventLoopWaker.start, ne_eq, h, not_false_iff, if_true]
    refine ⟨trivial, ?_⟩
    cases nfd with
    | none => simp [EventLoopWaker.wakeState]
    | some t =>
      have ht : t ≠ si := fun hts => h (by rw [hts])
      simp [EventLoopWaker.wakeState, ht]

/-- `start_at` with a strictly future instant keeps the sentinel and
emits one native call exactly when the logical state changes, provided
the clock reading is at or after the sentinel. -/
theorem start_at_calls_spec (w : EventLoopWaker) (now : Instant) (current : ℚ)
    (instant : Option Instant) (hwf : w.start_instant ≤ now) :
    ((w.start_at now current instant).1.start_instant = w.start_instant) ∧
    ((w.start_at now current instant).2.length =
      if (w.start_at now current instant).1.wakeState = w.wakeState then 0 else 1) := by
  rcases instant with _ | t
  · exact stop_calls_spec w
  · by_cases hle : t ≤ now
    · have : w.start_at now current (some t) = w.start := by
        simp [EventLoopWaker.start_at, hle]
      rw [this]
      exact start_calls_spec w
    · have hlt : now < t := Nat.lt_of_not_le hle
      have hge : ¬ now ≥ t := Nat.not_le.mpr hlt
      rcases w with ⟨si, nfd⟩
      have htsi : t ≠ si := by
        intro hts
        exact Nat.not_le.mpr hlt (hts ▸ hwf)
      by_cases hfd : nfd = some t
      · subst hfd
        simp [EventLoopWaker.start_at, hge, EventLoopWaker.wakeState]
      · simp only [EventLoopWaker.start_at, ge_iff_le, hge, if_false, ne_eq, hfd,
          not_false_iff, if_true]
        refine ⟨trivial, ?_⟩
        simp only [List.length_singleton]
        cases nfd with
        | none => simp [EventLoopWaker.wakeState, htsi]
        | some u =>
          have hut : u ≠ t := fun hu => hfd (by rw [hu])
          simp only [EventLoopWaker.wakeState, htsi, if_false]
          split
          · simp_all
          · have : WakeState.WakeAt t ≠ WakeState.WakeAt u := by
              intro hcon
              exact hut (WakeState.WakeAt.injEq t u ▸ hcon).symm
            rw [if_neg this]

/-- One interface call keeps the sentinel and emits one native call
exactly when the logical state changes. -/
theorem apply_calls_spec (w : EventLoopWaker) (op : WakerOp) (hwf : op.wf w.start_instant) :
    ((op.apply w).1.start_instant = w.start_instant) ∧
    ((op.apply w).2.length = if (op.apply w).1.wakeState = w.wakeState then 0 else 1) := by
  cases op with
  | stopOp => exact stop_calls_spec w
  | startOp => exact start_calls_spec w
  | startAtOp now current instant => exact start_at_calls_spec w now current instant hwf

/-- Over a whole call sequence, the native-call trace has exactly one
entry per logical state change. -/
theorem runOps_length_eq_countChanges (ops : List WakerOp) :
    ∀ w : EventLoopWaker, (∀ op ∈ ops, op.wf w.start_instant) →
      (runOps w ops).2.length = countChanges w ops := by
  induction ops with
  | nil => intro w _; simp [runOps, countChanges]
  | cons op ops ih =>
    intro w hwf
    have hstep := apply_calls_spec w op (hwf op (List.mem_cons_self op ops))
    have hrest : ∀ o ∈ ops, o.wf (op.apply w).1.start_instant := by
      intro o ho
      rw [hstep.1]
      exact hwf o (List.mem_cons_of_mem op ho)
    simp only [runOps, countChanges, List.length_append]
    rw [hstep.2, ih _ hrest]

/-- Claim C2: over every finite sequence of `stop` / `start` / `start_at`
calls (each with clock readings at or after the construction-time
sentinel), the number of native `CFRunLoopTimerSetNextFireDate` calls
equals the number of logical wake-state changes the sequence passes
through; in particular a call that requests the state the waker is
already in performs no native call. -/
theorem waker_native_call_count (w : EventLoopWaker) (ops : List WakerOp)
    (hwf : ∀ op ∈ ops, op.wf w.start_instant) :
    (runOps w ops).2.length = countChanges w ops ∧
    ∀ (w' : EventLoopWaker) (op : WakerOp), op.wf w'.start_instant →
      (op.apply w').1.wakeState = w'.wakeState → (op.apply w').2 = [] := by
  refine ⟨runOps_length_eq_countChanges ops w hwf, ?_⟩
  intro w' op hwf' hsame
  have h := (apply_calls_spec w' op hwf').2
  rw [if_pos hsame] at h
  exact List.length_eq_zero.mp h

/-- Witness for claim C2, on the concrete run
`start; start; start_at 9; start_at 9; stop` from the stopped state:
three state changes, three native calls, and a repeated `start` request
performs no native call. -/
theorem waker_native_call_count_witness :
    (runOps ⟨0, none⟩
        [WakerOp.startOp, WakerOp.startOp, WakerOp.startAtOp 5 0 (some 9),
          WakerOp.startAtOp 5 0 (some 9), WakerOp.stopOp]).2.length =
      countChanges ⟨0, none⟩
        [WakerOp.startOp, WakerOp.startOp, WakerOp.startAtOp 5 0 (some 9),
          WakerOp.startAtOp 5 0 (some 9), WakerOp.stopOp] ∧
    (WakerOp.startOp.apply ⟨0, some 0⟩).2 = [] := by
  constructor
  · exact (waker_native_call_count ⟨0, none⟩
      [WakerOp.startOp, WakerOp.startOp, WakerOp.startAtOp 5 0 (some 9),
        WakerOp.startAtOp 5 0 (some 9), WakerOp.stopOp]
      (by intro op hop; fin_cases hop <;> simp [WakerOp.wf])).1
  · exact (waker_native_call_count ⟨0, none⟩ [] (by simp)).2 ⟨0, some 0⟩ WakerOp.startOp
      trivial (by decide)

/-- The fractional-seconds computation of `start_at` is exact division by
`10⁹` in `ℚ`. -/
theorem fsecs_eq (d : Nat) : fsecs d = (d : ℚ) / 1000000000 := by
  unfold fsecs
  have h : ((d % 1000000000 : Nat) : ℚ) + 1000000000 * ((d / 1000000000 : Nat) : ℚ)
      = (d : ℚ) := by
    exact_mod_cast congrArg (Nat.cast (R := ℚ)) (Nat.mod_add_div d 1000000000)
  field_simp
  linarith

/-- The last-call-wins fold splits over trace concatenation. -/
theorem applyCalls_append (fd : FireDate) (a b : List FireDate) :
    applyCalls fd (a ++ b) = applyCalls (applyCalls fd a) b := by
  simp [applyCalls, List.foldl_append]

/-- A `sync` assumption on a call implies its `wf` assumption. -/
theorem sync_wf (offset : ℚ) (si : Instant) (op : WakerOp) (h : op.sync offset si) :
    op.wf si := by
  cases op with
  | startAtOp now current instant => exact h.1
  | stopOp => trivial
  | startOp => trivial

/-- `stop` preserves the fire-date invariant. -/
theorem stop_preserves_inv (offset : ℚ) (w : EventLoopWaker) (fd : FireDate)
    (hinv : FireDateInv offset w fd) :
    FireDateInv offset w.stop.1 (applyCalls fd w.stop.2) := by
  rcases w with ⟨si, nfd⟩
  cases nfd with
  | none => exact hinv
  | some t => simp [EventLoopWaker.stop, FireDateInv, applyCalls]

/-- `start` preserves the fire-date invariant. -/
theorem start_preserves_inv (offset : ℚ) (w : EventLoopWaker) (fd : FireDate)
    (hinv : FireDateInv offset w fd) :
    FireDateInv offset w.start.1 (applyCalls fd w.start.2) := by
  rcases w with ⟨si, nfd⟩
  by_cases h : nfd = some si
  · subst h
    simpa [EventLoopWaker.start, applyCalls] using hinv
  · simp [EventLoopWaker.start, h, FireDateInv, applyCalls]

/-- `start_at` preserves the fire-date invariant when the clock readings
are coherent. -/
theorem start_at_preserves_inv (offset : ℚ) (w : EventLoopWaker) (fd : FireDate)
    (now : Instant) (current : ℚ) (instant : Option Instant)
    (hwf : w.start_instant ≤ now) (hcur : current = offset + (now : ℚ) / 1000000000)
    (hinv : FireDateInv offset w fd) :
    FireDateInv offset (w.start_at now current instant).1
      (applyCalls fd (w.start_at now current instant).2) := by
  rcases instant with _ | t
  · exact stop_preserves_inv offset w fd hinv
  · by_cases hle : t ≤ now
    · have heq : w.start_at now current (some t) = w.start := by
        simp [EventLoopWaker.start_at, hle]
      rw [heq]
      exact start_preserves_inv offset w fd hinv
    · have hlt : now < t := Nat.lt_of_not_le hle
      have hge : ¬ now ≥ t := Nat.not_le.mpr hlt
      rcases w with ⟨si, nfd⟩
      have htsi : t ≠ si := by
        intro hts
        exact Nat.not_le.mpr hlt (hts ▸ hwf)
      by_cases hfd : nfd = some t
      · subst hfd
        simpa [EventLoopWaker.start_at, hge, applyCalls] using hinv
      · have habs : current + fsecs (t - now) = nativeTime offset t := by
          rw [fsecs_eq, hcur, nativeTime]
          rw [Nat.cast_sub (Nat.le_of_lt hlt)]
          ring
        simp [EventLoopWaker.start_at, hge, hfd, FireDateInv, applyCalls, htsi, habs]

/-- One coherent interface call preserves the fire-date invariant. -/
theorem apply_preserves_inv (offset : ℚ) (w : EventLoopWaker) (fd : FireDate) (op : WakerOp)
    (hop : op.sync offset w.start_instant) (hinv : FireDateInv offset w fd) :
    FireDateInv offset (op.apply w).1 (applyCalls fd (op.apply w).2) := by
  cases op with
  | stopOp => exact stop_preserves_inv offset w fd hinv
  | startOp => exact start_preserves_inv offset w fd hinv
  | startAtOp now current instant =>
    exact start_at_preserves_inv offset w fd now current instant hop.1 hop.2 hinv

/-- A coherent call sequence preserves the fire-date invariant. -/
theorem runOps_preserves_inv (offset : ℚ) (ops : List WakerOp) :
    ∀ (w : EventLoopWaker) (fd : FireDate), (∀ op ∈ ops, op.sync offset w.start_instant) →
      FireDateInv offset w fd →
      FireDateInv offset (runOps w ops).1 (applyCalls fd (runOps w ops).2) := by
  induction ops with
  | nil =>
    intro w fd _ hinv
    simpa [runOps, applyCalls] using hinv
  | cons op ops ih =>
    intro w fd hsync hinv
    have hop := hsync op (List.mem_cons_self op ops)
    have hpres := (apply_calls_spec w op (sync_wf offset w.start_instant op hop)).1
    have hrest : ∀ o ∈ ops, o.sync offset (op.apply w).1.start_instant := by
      intro o ho
      rw [hpres]
      exact hsync o (List.mem_cons_of_mem op ho)
    simp only [runOps]
    rw [applyCalls_append]
    exact ih (op.apply w).1 (applyCalls fd (op.apply w).2) hrest
      (apply_preserves_inv offset w fd op hop hinv)

/-- Claim C3: the freshly constructed waker is stopped with a far-future
fire date, and after every coherent sequence of `stop` / `start` /
`start_at` calls the natively programmed fire date exactly reflects the
stored wake state (`None` ↔ `f64::MAX`, `Some start_instant` ↔
`f64::MIN`, other `Some t` ↔ the absolute native-clock equivalent of
`t`). -/
theorem fire_date_reflects_wake_state (now0 : Instant) (offset : ℚ) (ops : List WakerOp)
    (hsync : ∀ op ∈ ops, op.sync offset now0) :
    ((EventLoopWaker.default now0).1.wakeState = WakeState.Stopped ∧
      (EventLoopWaker.default now0).2 = FireDate.f64Max) ∧
    FireDateInv offset (runOps (EventLoopWaker.default now0).1 ops).1
      (applyCalls (EventLoopWaker.default now0).2
        (runOps (EventLoopWaker.default now0).1 ops).2) := by
  refine ⟨⟨rfl, rfl⟩, ?_⟩
  exact runOps_preserves_inv offset ops (EventLoopWaker.default now0).1
    (EventLoopWaker.default now0).2 (by simpa [EventLoopWaker.default] using hsync) rfl

/-- Witness for claim C3, on the run `start_at (some 7); stop` with
coherent clocks (`offset = 0`, the `start_at` call happening at instant
`5`, native clock `5·10⁻⁹`). -/
theorem fire_date_reflects_wake_state_witness :
    ((EventLoopWaker.default 0).1.wakeState = WakeState.Stopped ∧
      (EventLoopWaker.default 0).2 = FireDate.f64Max) ∧
    FireDateInv 0
      (runOps (EventLoopWaker.default 0).1
        [WakerOp.startAtOp 5 (5 / 1000000000) (some 7), WakerOp.stopOp]).1
      (applyCalls (EventLoopWaker.default 0).2
        (runOps (EventLoopWaker.default 0).1
          [WakerOp.startAtOp 5 (5 / 1000000000) (some 7), WakerOp.stopOp]).2) := by
  refine fire_date_reflects_wake_state 0 0
    [WakerOp.startAtOp 5 (5 / 1000000000) (some 7), WakerOp.stopOp] ?_
  intro op hop
  fin_cases hop
  · exact ⟨by norm_num, by norm_num⟩
  · trivial

/-- Claim C4: `start_at` performs exactly the source's case analysis:
`none` is `stop`; a past-or-present instant is `start`; a strictly
future instant stores the instant and programs the fire date to
`current + fsecs (t - now)` only when the stored instant differs,
performing no native call otherwise. -/
theorem start_at_case_analysis (w : EventLoopWaker) (now : Instant) (current : ℚ) :
    (w.start_at now current none = w.stop) ∧
    (∀ t, t ≤ now → w.start_at now current (some t) = w.start) ∧
    (∀ t, now < t →
      (w.next_fire_date ≠ some t →
        w.start_at now current (some t) =
          ({ w with next_fire_date := some t },
            [FireDate.absTime (current + fsecs (t - now))])) ∧
      (w.next_fire_date = some t → w.start_at now current (some t) = (w, []))) := by
  refine ⟨rfl, ?_, ?_⟩
  · intro t ht
    simp [EventLoopWaker.start_at, ht]
  · intro t ht
    have hge : ¬ now ≥ t := Nat.not_le.mpr ht
    constructor
    · intro hne
      simp [EventLoopWaker.start_at, hge, hne]
    · intro heq
      simp [EventLoopWaker.start_at, hge, heq]

/-- Witness for claim C4 at concrete inputs: all four branches of the
case analysis, from the states `⟨0, none⟩` and `⟨0, some 9⟩` at call
time `now = 5`. -/
theorem start_at_case_analysis_witness :
    ((⟨0, none⟩ : EventLoopWaker).start_at 5 0 none = (⟨0, none⟩ : EventLoopWaker).stop) ∧
    ((⟨0, none⟩ : EventLoopWaker).start_at 5 0 (some 3) =
      (⟨0, none⟩ : EventLoopWaker).start) ∧
    ((⟨0, none⟩ : EventLoopWaker).start_at 5 0 (some 9) =
      (⟨0, some 9⟩, [FireDate.absTime (0 + fsecs (9 - 5))])) ∧
    ((⟨0, some 9⟩ : EventLoopWaker).start_at 5 0 (some 9) = (⟨0, some 9⟩, [])) := by
  have h1 := start_at_case_analysis ⟨0, none⟩ 5 0
  have h2 := start_at_case_analysis ⟨0, some 9⟩ 5 0
  exact ⟨h1.1, h1.2.1 3 (by decide), (h1.2.2 9 (by decide)).1 (by decide),
    (h2.2.2 9 (by decide)).2 rfl⟩

/-- Claim C5: `setup_control_flow_observers` registers exactly the two
observers, in common modes with a shared context: the begin observer on
after-waiting at `CFIndex::min_value()` (runs first, since lower runs
sooner) and the end observer on exit-or-before-waiting at
`CFIndex::max_value()` (runs last); any observer at a non-extreme
priority is sandwiched between them. -/
theorem setup_observers_registration (ctx : Nat) (p : Int)
    (hlo : CFIndexMin < p) (hhi : p < CFIndexMax) :
    setup_control_flow_observers ctx =
      [ { flags := [Activity.afterWaiting]
          priority := CFIndexMin
          repeats := true
          handler := HandlerId.controlFlowBegin
          context := ctx
          mode := RunLoopMode.commonModes },
        { flags := [Activity.exit, Activity.beforeWaiting]
          priority := CFIndexMax
          repeats := true
          handler := HandlerId.controlFlowEnd
          context := ctx
          mode := RunLoopMode.commonModes } ] ∧
    (∀ r ∈ setup_control_flow_observers ctx,
      r.mode = RunLoopMode.commonModes ∧ r.context = ctx ∧
      (r.handler = HandlerId.controlFlowBegin → r.priority < p) ∧
      (r.handler = HandlerId.controlFlowEnd → p < r.priority)) := by
  refine ⟨rfl, ?_⟩
  intro r hr
  simp only [setup_control_flow_observers, kCFRunLoopAfterWaiting, kCFRunLoopExit,
    kCFRunLoopBeforeWaiting, List.cons_append, List.nil_append, List.mem_cons,
    List.not_mem_nil, or_false] at hr
  rcases hr with rfl | rfl
  · exact ⟨rfl, rfl, fun _ => hlo, fun hc => by simp at hc⟩
  · exact ⟨rfl, rfl, fun hc => by simp at hc, fun _ => hhi⟩

/-- Witness for claim C5 at context `5` and the non-extreme priority
`0`. -/
theorem setup_observers_registration_witness :
    CFIndexMin < (0 : Int) ∧ (0 : Int) < CFIndexMax ∧
    ∀ r ∈ setup_control_flow_observers 5,
      r.mode = RunLoopMode.commonModes ∧ r.context = 5 ∧
      (r.handler = HandlerId.controlFlowBegin → r.priority < 0) ∧
      (r.handler = HandlerId.controlFlowEnd → 0 < r.priority) :=
  ⟨by decide, by decide, (setup_observers_registration 5 0 (by decide) (by decide)).2⟩

/-- Counterexample to claim C6: the exit activity is in the end
observer's registered flag set, yet the end handler's closure invokes no
`on_cleared` notification for it (the source makes `kCFRunLoopExit` a
no-op). -/
theorem exit_activity_delivers_no_cleared :
    Activity.exit ∈ kCFRunLoopExit ++ kCFRunLoopBeforeWaiting ∧
    (control_flow_end_body ⟨CallOutcome.ok, CallOutcome.ok⟩ Activity.exit).invoked = [] ∧
    AppNote.cleared ∉
      (control_flow_end_body ⟨CallOutcome.ok, CallOutcome.ok⟩ Activity.exit).invoked := by
  decide

/-- Claim C6 (amended): after-waiting activity invokes the `on_wakeup`
notification, before-waiting activity invokes the `on_cleared`
notification, and exit activity invokes no notification. -/
theorem phase_to_notification_translation (d : AppDelegate) :
    (control_flow_begin_body d Activity.afterWaiting).invoked = [AppNote.wakeup] ∧
    (control_flow_end_body d Activity.beforeWaiting).invoked = [AppNote.cleared] ∧
    (control_flow_end_body d Activity.exit).invoked = [] := by
  rcases d with ⟨hw, hc⟩
  cases hw <;> cases hc <;>
    simp [control_flow_begin_body, control_flow_end_body]

/-- Claim C7: delivering the exit activity to the end observer's
callback performs no notification and no state change, and returns
normally (no panic: the closure body's panic field is `none`, and the
guarded invocation returns, never unwinds). -/
theorem exit_activity_noop (d : AppDelegate) (h : WeakHandle) (st : LoopState) :
    control_flow_end_handler d h st Activity.exit =
      ({ weakCount := h.weakCount, rawOwned := true }, GuardResult.returned st) ∧
    (control_flow_end_body d Activity.exit).panicked = none ∧
    (control_flow_end_body d Activity.exit).invoked = [] := by
  refine ⟨?_, rfl, rfl⟩
  rcases st with ⟨slot, sr, del⟩
  cases slot <;>
    simp [control_flow_end_handler, control_flow_handler, control_flow_end_body,
      stop_app_on_panic, weakFromRaw, weakClone, memForget, weakDrop]

/-- Claim C8: an activity outside the handled set of either callback
makes the closure body hit the `unreachable!()` arm (a loud failure)
instead of silently returning. -/
theorem unhandled_activity_fails_loudly (d : AppDelegate) (a : Activity) :
    (a ∉ kCFRunLoopAfterWaiting →
      (control_flow_begin_body d a).panicked = some PanicPayload.unreachableReached) ∧
    (a ∉ kCFRunLoopBeforeWaiting ++ kCFRunLoopExit →
      (control_flow_end_body d a).panicked = some PanicPayload.unreachableReached) := by
  rcases d with ⟨hw, hc⟩
  cases a <;> cases hw <;> cases hc <;>
    simp [control_flow_begin_body, control_flow_end_body, kCFRunLoopAfterWaiting,
      kCFRunLoopBeforeWaiting, kCFRunLoopExit]

/-- Witness for claim C8 at the entry activity, which neither handler
handles. -/
theorem unhandled_activity_fails_loudly_witness :
    (control_flow_begin_body ⟨CallOutcome.ok, CallOutcome.ok⟩ Activity.entry).panicked =
      some PanicPayload.unreachableReached ∧
    (control_flow_end_body ⟨CallOutcome.ok, CallOutcome.ok⟩ Activity.entry).panicked =
      some PanicPayload.unreachableReached :=
  ⟨(unhandled_activity_fails_loudly ⟨CallOutcome.ok, CallOutcome.ok⟩ Activity.entry).1
      (by decide),
    (unhandled_activity_fails_loudly ⟨CallOutcome.ok, CallOutcome.ok⟩ Activity.entry).2
      (by decide)⟩

/-- Claim C9: a guarded invocation whose weak upgrade fails (the owning
loop's slot is gone) performs no observable action, returns normally,
and leaves the registration's weak handle exactly as it was. -/
theorem stale_callback_harmless (h : WeakHandle) (st : LoopState) (body : BodyResult)
    (hslot : st.slot = none) (hraw : h.rawOwned = true) :
    control_flow_handler h st body = (h, GuardResult.returned st) := by
  rcases h with ⟨wc, ro⟩
  rcases st with ⟨slot, sr, del⟩
  simp only at hslot hraw
  subst hslot
  subst hraw
  simp [control_flow_handler, stop_app_on_panic, weakFromRaw, weakClone, memForget,
    weakDrop]

/-- Witness for claim C9: a stale callback with a dead slot and a
registered weak handle of count `2`. -/
theorem stale_callback_harmless_witness :
    (⟨none, false, []⟩ : LoopState).slot = none ∧
    (⟨2, true⟩ : WeakHandle).rawOwned = true ∧
    control_flow_handler ⟨2, true⟩ ⟨none, false, []⟩ ⟨[], none⟩ =
      (⟨2, true⟩, GuardResult.returned ⟨none, false, []⟩) :=
  ⟨rfl, rfl, stale_callback_harmless ⟨2, true⟩ ⟨none, false, []⟩ ⟨[], none⟩ rfl rfl⟩

/-- Claim C1: when a guarded closure panics while the slot is alive, the
payload is captured into the slot, control returns normally to the
native frame (no unwinding), loop termination is requested, and after
the loop stops the payload is re-raised exactly once (a second resume
finds nothing). -/
theorem guarded_panic_captured_and_reraised_once (h : WeakHandle) (st : LoopState)
    (body : BodyResult) (p : PanicPayload) (info : PanicInfo)
    (hslot : st.slot = some info) (hp : body.panicked = some p) :
    ∃ st₁ : LoopState,
      control_flow_handler h st body =
        ({ weakCount := h.weakCount, rawOwned := true }, GuardResult.returned st₁) ∧
      st₁.slot = some { payload := some p } ∧
      st₁.stopRequested = true ∧
      st₁.delivered = st.delivered ++ body.invoked ∧
      (resume_panic_if_any st₁).1 = some p ∧
      (resume_panic_if_any (resume_panic_if_any st₁).2).1 = none := by
  refine ⟨{ slot := some { payload := some p }
            stopRequested := true
            delivered := st.delivered ++ body.invoked }, ?_, rfl, rfl, rfl, rfl, rfl⟩
  rcases h with ⟨wc, ro⟩
  simp [control_flow_handler, stop_app_on_panic, hslot, hp, weakFromRaw, weakClone,
    memForget, weakDrop]

/-- Witness for claim C1: a delegate panic with payload code `7` raised
inside the begin closure, with a live empty slot. -/
theorem guarded_panic_captured_and_reraised_once_witness :
    (⟨some ⟨none⟩, false, []⟩ : LoopState).slot = some ⟨none⟩ ∧
    (⟨[AppNote.wakeup], some (PanicPayload.appPanic 7)⟩ : BodyResult).panicked =
      some (PanicPayload.appPanic 7) ∧
    ∃ st₁ : LoopState,
      control_flow_handler ⟨1, true⟩ ⟨some ⟨none⟩, false, []⟩
          ⟨[AppNote.wakeup], some (PanicPayload.appPanic 7)⟩ =
        (⟨1, true⟩, GuardResult.returned st₁) ∧
      st₁.slot = some { payload := some (PanicPayload.appPanic 7) } ∧
      st₁.stopRequested = true ∧
      st₁.delivered = [] ++ [AppNote.wakeup] ∧
      (resume_panic_if_any st₁).1 = some (PanicPayload.appPanic 7) ∧
      (resume_panic_if_any (resume_panic_if_any st₁).2).1 = none :=
  ⟨rfl, rfl,
    guarded_panic_captured_and_reraised_once ⟨1, true⟩ ⟨some ⟨none⟩, false, []⟩
      ⟨[AppNote.wakeup], some (PanicPayload.appPanic 7)⟩ (PanicPayload.appPanic 7)
      ⟨none⟩ rfl rfl⟩

/-- Claim C10: each observer's registered flag set exactly covers the
activities its handler's match handles, so under deliveries restricted
to the registered set the `unreachable!()` branch is never executed. -/
theorem registered_flags_cover_handled_arms (d : AppDelegate) (a : Activity) (ctx : Nat)
    (rb re : ObserverReg) (hsetup : setup_control_flow_observers ctx = [rb, re]) :
    (a ∈ rb.flags ↔ ¬ hitsUnreachable (control_flow_begin_body d a)) ∧
    (a ∈ re.flags ↔ ¬ hitsUnreachable (control_flow_end_body d a)) := by
  simp only [setup_control_flow_observers, kCFRunLoopAfterWaiting, kCFRunLoopExit,
    kCFRunLoopBeforeWaiting, List.cons_append, List.nil_append, List.cons.injEq,
    and_true] at hsetup
  obtain ⟨hb, he⟩ := hsetup
  rw [← hb, ← he]
  rcases d with ⟨hw, hc⟩
  cases a <;> cases hw <;> cases hc <;>
    simp [hitsUnreachable, control_flow_begin_body, control_flow_end_body]

/-- Witness for claim C10 at the after-waiting activity. -/
theorem registered_flags_cover_handled_arms_witness :
    setup_control_flow_observers 0 =
      [ { flags := [Activity.afterWaiting]
          priority := CFIndexMin
          repeats := true
          handler := HandlerId.controlFlowBegin
          context := 0
          mode := RunLoopMode.commonModes },
        { flags := [Activity.exit, Activity.beforeWaiting]
          priority := CFIndexMax
          repeats := true
          handler := HandlerId.controlFlowEnd
          context := 0
          mode := RunLoopMode.commonModes } ] ∧
    ((Activity.afterWaiting ∈
        ({ flags := [Activity.afterWaiting]
           priority := CFIndexMin
           repeats := true
           handler := HandlerId.controlFlowBegin
           context := 0
           mode := RunLoopMode.commonModes } : ObserverReg).flags ↔
      ¬ hitsUnreachable
        (control_flow_begin_body ⟨CallOutcome.ok, CallOutcome.ok⟩ Activity.afterWaiting)) ∧
     (Activity.afterWaiting ∈
        ({ flags := [Activity.exit, Activity.beforeWaiting]
           priority := CFIndexMax
           repeats := true
           handler := HandlerId.controlFlowEnd
           context := 0
           mode := RunLoopMode.commonModes } : ObserverReg).flags ↔
      ¬ hitsUnreachable
        (control_flow_end_body ⟨CallOutcome.ok, CallOutcome.ok⟩ Activity.afterWaiting))) :=
  ⟨rfl,
    registered_flags_cover_handled_arms ⟨CallOutcome.ok, CallOutcome.ok⟩
      Activity.afterWaiting 0 _ _ rfl⟩
